import Mathlib

/-!
Verification of the adaptive detection engine of the tetra-detector
repository (src/tetra_detector.py and src/sdr_manager.py), shallowly
embedded in Lean.  Power levels and timestamps are modelled as rationals;
Python `None` becomes `Option`; the per-device mutable dictionaries of
`TetraDetector` become fields of an explicit per-device state record.
-/

namespace TetraDetector

/-- Insert a rational into an ascending-sorted list, keeping it sorted. -/
def insertSorted (x : ℚ) : List ℚ → List ℚ
  | [] => [x]
  | y :: ys => if x ≤ y then x :: y :: ys else y :: insertSorted x ys

/-- Ascending insertion sort on rationals. -/
def sortList (xs : List ℚ) : List ℚ :=
  xs.foldr insertSorted []

/-- `np.median` on a list of values: the middle element of the sorted list
when the length is odd, the average of the two middle elements when even
(default 0 on the empty list, which the detector never queries). -/
def median (xs : List ℚ) : ℚ :=
  let s := sortList xs
  let n := s.length
  if n % 2 = 1 then s.getD (n / 2) 0
  else (s.getD (n / 2 - 1) 0 + s.getD (n / 2) 0) / 2

/-- `collections.deque(maxlen := m).append x`: append on the right and, when
the capacity `m` is exceeded, evict from the left. -/
def appendBounded (m : ℕ) (xs : List ℚ) (x : ℚ) : List ℚ :=
  let ys := xs ++ [x]
  if m < ys.length then ys.drop (ys.length - m) else ys

/-- The last `n` elements of a list (oldest entries dropped first). -/
def takeLast (n : ℕ) (xs : List α) : List α :=
  xs.drop (xs.length - n)

/-- Python `max` over a list, left fold of the binary max over the tail.
The empty case is never used by the detector (guarded by non-emptiness). -/
def listMax : List ℚ → ℚ
  | [] => 0
  | x :: xs => xs.foldl max x

/-- Per-device detector state: the configuration snapshot together with the
per-device entries of the mutable dictionaries of `TetraDetector`
(`noise_floor_history`, `noise_floor`, `dynamic_threshold`,
`signal_history`, `peak_in_window`, `previous_peak`, `last_detection_peak`,
`last_detection_time`, `detection_counts`) and the global
`total_detections` counter. -/
structure DetectorState where
  adaptive_enabled : Bool
  fixed_threshold : ℚ
  threshold_margin : ℚ
  noise_floor_window : ℕ
  pulse_window_seconds : ℚ
  noise_floor_history : List ℚ
  noise_floor : Option ℚ
  dynamic_threshold : ℚ
  signal_history : List (ℚ × ℚ)
  peak_in_window : ℚ
  previous_peak : ℚ
  last_detection_peak : ℚ
  last_detection_time : Option ℚ
  detection_count : ℕ
  total_detections : ℕ
  deriving Repr, DecidableEq

/-- `TetraDetector.__init__` lines 57-66: empty buffers, unset noise floor,
dynamic threshold primed with the fixed configured threshold, peaks at
-100, no detection yet, zero counters. -/
def initState (adaptive : Bool) (fixed_threshold threshold_margin : ℚ)
    (noise_floor_window : ℕ) (pulse_window_seconds : ℚ) : DetectorState :=
  { adaptive_enabled := adaptive
    fixed_threshold := fixed_threshold
    threshold_margin := threshold_margin
    noise_floor_window := noise_floor_window
    pulse_window_seconds := pulse_window_seconds
    noise_floor_history := []
    noise_floor := none
    dynamic_threshold := fixed_threshold
    signal_history := []
    peak_in_window := -100
    previous_peak := -100
    last_detection_peak := -100
    last_detection_time := none
    detection_count := 0
    total_detections := 0 }

/-- The non-signal buffer after lines 243-245 of
`TetraDetector.update_noise_floor`: the reading is appended to the bounded
deque only when it was not classified as signal. -/
def nf_buffer (s : DetectorState) (power_db : ℚ) (is_signal : Bool) : List ℚ :=
  if !is_signal then appendBounded s.noise_floor_window s.noise_floor_history power_db
  else s.noise_floor_history

/-- `TetraDetector.update_noise_floor` (lines 238-252): a no-op when
adaptive mode is disabled; otherwise the buffer becomes `nf_buffer`, and
once it holds at least 5 entries the noise floor is recomputed as the
median of the buffer and the dynamic threshold as that floor plus the
margin. -/
def update_noise_floor (s : DetectorState) (power_db : ℚ) (is_signal : Bool) :
    DetectorState :=
  if !s.adaptive_enabled then s
  else if 5 ≤ (nf_buffer s power_db is_signal).length then
    { s with noise_floor_history := nf_buffer s power_db is_signal
             noise_floor := some (median (nf_buffer s power_db is_signal))
             dynamic_threshold := median (nf_buffer s power_db is_signal) + s.threshold_margin }
  else
    { s with noise_floor_history := nf_buffer s power_db is_signal }

/-- The signal-history queue after lines 258-264 of
`TetraDetector.update_pulse_window`: `(now, power_db)` appended on the
right, then entries popped from the left while their timestamp is below
`now - pulse_window_seconds`. -/
def pw_queue (s : DetectorState) (now power_db : ℚ) : List (ℚ × ℚ) :=
  (s.signal_history ++ [(now, power_db)]).dropWhile
    (fun r => decide (r.1 < now - s.pulse_window_seconds))

/-- The state left by `TetraDetector.update_pulse_window`: the queue is
replaced by `pw_queue`; when it is non-empty the previous peak is saved
and the peak recomputed as the maximum retained power, and when it emptied
the peak falls back to the raw reading. -/
def update_pulse_window (s : DetectorState) (now power_db : ℚ) : DetectorState :=
  match pw_queue s now power_db with
  | [] => { s with signal_history := [], peak_in_window := power_db }
  | r :: rs =>
      { s with signal_history := r :: rs
               previous_peak := s.peak_in_window
               peak_in_window := listMax ((r :: rs).map Prod.snd) }

/-- The recent-detection validity check of `TetraDetector.display_status`
(lines 150-152): a detection exists, its stored peak exceeds -90, and it
is no older than `pulse_window_seconds + 1` (the reset timeout). -/
def display_recent (s : DetectorState) (now : ℚ) : Bool :=
  match s.last_detection_time with
  | some t =>
      decide ((-90 : ℚ) < s.last_detection_peak) &&
      decide (now - t ≤ s.pulse_window_seconds + 1)
  | none => false

/-- The display value itself: the stored peak in the recent-detection
state, otherwise the established noise floor, otherwise the -80 baseline. -/
def display_power (s : DetectorState) (now : ℚ) : ℚ :=
  if display_recent s now then s.last_detection_peak
  else
    match s.noise_floor with
    | some nf => nf
    | none => -80

/-- The per-device entry of the aggregate result assembled by
`TetraDetector.run` for one tick. -/
structure TickResult where
  power_db : ℚ
  threshold : ℚ
  noise_floor : Option ℚ
  detected : Bool
  deriving Repr, DecidableEq

/-- The detection decision of `TetraDetector.run` (lines 288-295) for one
device: `SDRManager.scan_all` primes `detected` with the fixed-threshold
comparison (sdr_manager.py line 137); in adaptive mode with an established
noise floor the decision is redone against the dynamic threshold, and the
dynamic threshold and noise floor are reported; otherwise the fixed
threshold is reported with a null noise floor and the primed flag stands.
Returns (effective threshold, reported noise floor, detected). -/
def decision (s : DetectorState) (power_db : ℚ) : ℚ × Option ℚ × Bool :=
  match s.adaptive_enabled, s.noise_floor with
  | true, some nf =>
      (s.dynamic_threshold, some nf, decide (s.dynamic_threshold < power_db))
  | true, none => (s.fixed_threshold, none, decide (s.fixed_threshold < power_db))
  | false, _ => (s.fixed_threshold, none, decide (s.fixed_threshold < power_db))

/-- One pass of the body of `TetraDetector.run` (lines 285-318) for one
device: make the detection decision, then update the noise floor (passing
the detected flag as `is_signal`), then update the pulse window, and on a
detection bump both counters and record the window peak and the detection
time. -/
def tick (s : DetectorState) (now power_db : ℚ) : DetectorState × TickResult :=
  let d := decision s power_db
  let s1 := update_noise_floor s power_db d.2.2
  let s2 := update_pulse_window s1 now power_db
  let s3 :=
    if d.2.2 then
      { s2 with detection_count := s2.detection_count + 1
                total_detections := s2.total_detections + 1
                last_detection_peak := s2.peak_in_window
                last_detection_time := some now }
    else s2
  (s3, { power_db := power_db, threshold := d.1, noise_floor := d.2.1
         detected := d.2.2 })

/-- Iterate `tick` over a list of `(timestamp, power)` readings, returning
the final state and the per-tick results in order. -/
def runTicks (s : DetectorState) : List (ℚ × ℚ) → DetectorState × List TickResult
  | [] => (s, [])
  | (t, p) :: rest =>
      let step := tick s t p
      let next := runTicks step.1 rest
      (next.1, step.2 :: next.2)

/-- The powers of the readings of a run that were classified non-signal
(`detected = false`), in order: exactly the readings
`TetraDetector.update_noise_floor` is asked to buffer. -/
def nonSignalPowers (results : List TickResult) : List ℚ :=
  (results.filter (fun r => !r.detected)).map (fun r => r.power_db)

end TetraDetector

namespace SDRManager

/-- `SDRDevice.scan` (sdr_manager.py lines 58-80), live branch: the
acquisition (`read_samples` plus the power computation) either yields a
power value or raises; the `except` clause substitutes the -80 sentinel
and the call returns normally. -/
def SDRDevice_scan (acq : Except String ℚ) : ℚ :=
  match acq with
  | .ok power_db => power_db
  | .error _ => -80

/-- The per-device result row built by `SDRManager.scan_all`
(lines 126-140): the scanned power and the fixed-threshold detection flag. -/
def scan_result (threshold : ℚ) (acq : Except String ℚ) : ℚ × Bool :=
  let p := SDRDevice_scan acq
  (p, decide (threshold < p))

/-- `SDRManager.scan_all` (lines 126-140): scan every device in order and
collect one result row per device. -/
def scan_all (threshold : ℚ) (acqs : List (Except String ℚ)) : List (ℚ × Bool) :=
  acqs.map (scan_result threshold)

end SDRManager

namespace Shutdown

/-- The exception that terminates the main loop of `TetraDetector.run`. -/
inductive LoopExit where
  | keyboardInterrupt : LoopExit
  | systemExit : LoopExit
  deriving DecidableEq, Repr

/-- `signal_handler` (tetra_detector.py lines 348-351), installed on SIGINT
by `main` (line 355): it calls `sys.exit(0)`, so the cancellation signal
reaches the loop as a `SystemExit` exception, not as `KeyboardInterrupt`. -/
def signal_handler_exit : LoopExit := LoopExit.systemExit

/-- The exception handling of `TetraDetector.run` (lines 326-328): only
`except KeyboardInterrupt` runs `cleanup()`; any other exception
propagates without finalization. -/
def run_cleanup_on : LoopExit → Bool
  | LoopExit.keyboardInterrupt => true
  | LoopExit.systemExit => false

/-- Whether `cleanup()` (cumulative counts, log close, device close) runs
when the external cancellation signal (SIGINT) terminates the loop of a
detector started through `main`. -/
def cleanup_runs_on_cancellation : Bool :=
  run_cleanup_on signal_handler_exit

end Shutdown

namespace TetraDetector

theorem appendBounded_eq_takeLast (m : ℕ) (ys : List ℚ) (x : ℚ) :
    appendBounded m ys x = takeLast m (ys ++ [x]) := by
  show (if m < (ys ++ [x]).length then (ys ++ [x]).drop ((ys ++ [x]).length - m)
        else ys ++ [x]) = (ys ++ [x]).drop ((ys ++ [x]).length - m)
  by_cases h : m < (ys ++ [x]).length
  · rw [if_pos h]
  · rw [if_neg h, show (ys ++ [x]).length - m = 0 by omega, List.drop_zero]

theorem takeLast_takeLast_append (m : ℕ) (l : List ℚ) (x : ℚ) :
    takeLast m (takeLast m l ++ [x]) = takeLast m (l ++ [x]) := by
  unfold takeLast
  by_cases h : m ≤ l.length
  · have h1 : (l.drop (l.length - m)).length = m := by
      rw [List.length_drop]; omega
    rw [List.length_append, List.length_append, h1]
    simp only [List.length_singleton]
    by_cases hm : m = 0
    · subst hm; simp
    · rw [show m + 1 - m = 1 by omega]
      rw [List.drop_append_of_le_length (by omega),
          List.drop_append_of_le_length (by omega)]
      rw [List.drop_drop]
      congr 2
      omega
  · rw [show l.length - m = 0 by omega]
    simp

theorem init_le_foldl_max (l : List ℚ) : ∀ init : ℚ, init ≤ l.foldl max init := by
  induction l with
  | nil => intro init; simp
  | cons y ys ih =>
      intro init
      calc init ≤ max init y := le_max_left _ _
        _ ≤ ys.foldl max (max init y) := ih _

theorem le_foldl_max (l : List ℚ) : ∀ (init x : ℚ), x ∈ l → x ≤ l.foldl max init := by
  induction l with
  | nil => intro _ _ h; cases h
  | cons y ys ih =>
      intro init x hx
      rcases List.mem_cons.mp hx with h | h
      · subst h
        calc x ≤ max init x := le_max_right _ _
          _ ≤ ys.foldl max (max init x) := init_le_foldl_max _ _
      · exact ih _ x h

theorem foldl_max_mem (l : List ℚ) : ∀ init : ℚ,
    l.foldl max init = init ∨ l.foldl max init ∈ l := by
  induction l with
  | nil => intro init; left; rfl
  | cons y ys ih =>
      intro init
      rcases ih (max init y) with h | h
      · rcases max_choice init y with h2 | h2 <;> rw [List.foldl_cons, h, h2]
        · left; rfl
        · right; exact List.mem_cons_self _ _
      · right; exact List.mem_cons_of_mem _ h

theorem listMax_mem (l : List ℚ) (h : l ≠ []) : listMax l ∈ l := by
  match l, h with
  | x :: xs, _ =>
      show xs.foldl max x ∈ x :: xs
      rcases foldl_max_mem xs x with h2 | h2
      · rw [h2]; exact List.mem_cons_self _ _
      · exact List.mem_cons_of_mem _ h2

theorem le_listMax (l : List ℚ) (x : ℚ) (h : x ∈ l) : x ≤ listMax l := by
  match l, h with
  | y :: ys, h =>
      show x ≤ ys.foldl max y
      rcases List.mem_cons.mp h with h2 | h2
      · subst h2; exact init_le_foldl_max _ _
      · exact le_foldl_max _ _ _ h2

theorem dropWhile_eq_filter_of_sorted {α : Type} (q : α → Bool) :
    ∀ l : List α, l.Pairwise (fun a b => q b = true → q a = true) →
      l.dropWhile q = l.filter (fun a => !q a)
  | [], _ => rfl
  | x :: xs, h => by
      rcases List.pairwise_cons.mp h with ⟨hx, hxs⟩
      by_cases hq : q x = true
      · rw [List.dropWhile_cons_of_pos hq, List.filter_cons_of_neg (by simp [hq])]
        exact dropWhile_eq_filter_of_sorted q xs hxs
      · rw [List.dropWhile_cons_of_neg (by simp [hq]), List.filter_cons_of_pos (by simp [hq])]
        have hall : ∀ a ∈ xs, (!q a) = true := by
          intro a ha
          by_cases h2 : q a = true
          · exact absurd (hx a ha h2) hq
          · simp [h2]
        rw [List.filter_eq_self.mpr hall]

theorem dropWhile_append_singleton_ne_nil {α : Type} (q : α → Bool) (l : List α)
    (a : α) (ha : q a = false) : (l ++ [a]).dropWhile q ≠ [] := by
  induction l with
  | nil => simp [List.dropWhile, ha]
  | cons x xs ih =>
      by_cases hx : q x = true
      · rw [List.cons_append, List.dropWhile_cons_of_pos hx]
        exact ih
      · rw [List.cons_append, List.dropWhile_cons_of_neg (by simp [hx])]
        simp

end TetraDetector

namespace TetraDetector

theorem update_noise_floor_shape (s : DetectorState) (p : ℚ) (sig : Bool) :
    ∃ hist fl dyn, update_noise_floor s p sig =
      { s with noise_floor_history := hist, noise_floor := fl,
               dynamic_threshold := dyn } := by
  unfold update_noise_floor
  split
  · exact ⟨_, _, _, rfl⟩
  · split <;> exact ⟨_, _, _, rfl⟩

theorem update_pulse_window_shape (s : DetectorState) (now p : ℚ) :
    ∃ q pk pv, update_pulse_window s now p =
      { s with signal_history := q, peak_in_window := pk, previous_peak := pv } := by
  unfold update_pulse_window
  split
  · exact ⟨_, _, _, rfl⟩
  · exact ⟨_, _, _, rfl⟩

theorem tick_snd (s : DetectorState) (t p : ℚ) :
    (tick s t p).2 = { power_db := p, threshold := (decision s p).1,
                       noise_floor := (decision s p).2.1,
                       detected := (decision s p).2.2 } := rfl

theorem tick_fst (s : DetectorState) (t p : ℚ) :
    (tick s t p).1 =
      (if (decision s p).2.2 then
        { update_pulse_window (update_noise_floor s p (decision s p).2.2) t p with
          detection_count :=
            (update_pulse_window (update_noise_floor s p (decision s p).2.2) t p).detection_count + 1
          total_detections :=
            (update_pulse_window (update_noise_floor s p (decision s p).2.2) t p).total_detections + 1
          last_detection_peak :=
            (update_pulse_window (update_noise_floor s p (decision s p).2.2) t p).peak_in_window
          last_detection_time := some t }
      else update_pulse_window (update_noise_floor s p (decision s p).2.2) t p) := rfl

theorem tick_shape (s : DetectorState) (t p : ℚ) :
    ∃ hist fl dyn q pk pv ldp ldt dc td, (tick s t p).1 =
      { s with noise_floor_history := hist, noise_floor := fl, dynamic_threshold := dyn,
               signal_history := q, peak_in_window := pk, previous_peak := pv,
               last_detection_peak := ldp, last_detection_time := ldt,
               detection_count := dc, total_detections := td } := by
  obtain ⟨h1, f1, d1, e1⟩ := update_noise_floor_shape s p (decision s p).2.2
  obtain ⟨q2, pk2, pv2, e2⟩ := update_pulse_window_shape (update_noise_floor s p (decision s p).2.2) t p
  rw [tick_fst, e2, e1]
  by_cases hb : (decision s p).2.2 = true
  · rw [if_pos hb]
    exact ⟨h1, f1, d1, q2, pk2, pv2, _, _, _, _, rfl⟩
  · rw [if_neg hb]
    exact ⟨h1, f1, d1, q2, pk2, pv2, _, _, _, _, rfl⟩

theorem tick_config (s : DetectorState) (t p : ℚ) :
    (tick s t p).1.adaptive_enabled = s.adaptive_enabled ∧
    (tick s t p).1.fixed_threshold = s.fixed_threshold ∧
    (tick s t p).1.threshold_margin = s.threshold_margin ∧
    (tick s t p).1.noise_floor_window = s.noise_floor_window ∧
    (tick s t p).1.pulse_window_seconds = s.pulse_window_seconds := by
  obtain ⟨hist, fl, dyn, q, pk, pv, ldp, ldt, dc, td, e⟩ := tick_shape s t p
  rw [e]
  exact ⟨rfl, rfl, rfl, rfl, rfl⟩

theorem runTicks_config (rs : List (ℚ × ℚ)) : ∀ s : DetectorState,
    (runTicks s rs).1.adaptive_enabled = s.adaptive_enabled ∧
    (runTicks s rs).1.fixed_threshold = s.fixed_threshold ∧
    (runTicks s rs).1.threshold_margin = s.threshold_margin ∧
    (runTicks s rs).1.noise_floor_window = s.noise_floor_window ∧
    (runTicks s rs).1.pulse_window_seconds = s.pulse_window_seconds := by
  induction rs with
  | nil => intro s; exact ⟨rfl, rfl, rfl, rfl, rfl⟩
  | cons x xs ih =>
      intro s
      obtain ⟨t, p⟩ := x
      have hstep : (runTicks s ((t, p) :: xs)).1 = (runTicks (tick s t p).1 xs).1 := rfl
      have hc := tick_config s t p
      have h2 := ih (tick s t p).1
      rw [hstep]
      exact ⟨h2.1.trans hc.1, h2.2.1.trans hc.2.1, h2.2.2.1.trans hc.2.2.1,
             h2.2.2.2.1.trans hc.2.2.2.1, h2.2.2.2.2.trans hc.2.2.2.2⟩

end TetraDetector

namespace TetraDetector

theorem update_noise_floor_not_adaptive (s : DetectorState) (p : ℚ) (sig : Bool)
    (h : s.adaptive_enabled = false) : update_noise_floor s p sig = s := by
  unfold update_noise_floor
  rw [h]
  rfl

theorem nf_buffer_not_signal (s : DetectorState) (p : ℚ) :
    nf_buffer s p false = appendBounded s.noise_floor_window s.noise_floor_history p := rfl

theorem nf_buffer_signal (s : DetectorState) (p : ℚ) :
    nf_buffer s p true = s.noise_floor_history := rfl

theorem update_noise_floor_hist (s : DetectorState) (p : ℚ) (sig : Bool)
    (h : s.adaptive_enabled = true) :
    (update_noise_floor s p sig).noise_floor_history = nf_buffer s p sig := by
  unfold update_noise_floor
  have hn : ¬((!s.adaptive_enabled) = true) := by simp [h]
  rw [if_neg hn]
  split <;> rfl

theorem update_noise_floor_floor (s : DetectorState) (p : ℚ) (sig : Bool)
    (h : s.adaptive_enabled = true) :
    (update_noise_floor s p sig).noise_floor =
      (if 5 ≤ (nf_buffer s p sig).length then some (median (nf_buffer s p sig))
       else s.noise_floor) := by
  unfold update_noise_floor
  have hn : ¬((!s.adaptive_enabled) = true) := by simp [h]
  rw [if_neg hn]
  split <;> rfl

theorem update_noise_floor_dyn (s : DetectorState) (p : ℚ) (sig : Bool)
    (h : s.adaptive_enabled = true) :
    (update_noise_floor s p sig).dynamic_threshold =
      (if 5 ≤ (nf_buffer s p sig).length then
        median (nf_buffer s p sig) + s.threshold_margin
       else s.dynamic_threshold) := by
  unfold update_noise_floor
  have hn : ¬((!s.adaptive_enabled) = true) := by simp [h]
  rw [if_neg hn]
  split <;> rfl

theorem update_noise_floor_inv (s : DetectorState) (p : ℚ) (sig : Bool)
    (h : ∀ nf, s.noise_floor = some nf → s.dynamic_threshold = nf + s.threshold_margin) :
    ∀ nf, (update_noise_floor s p sig).noise_floor = some nf →
      (update_noise_floor s p sig).dynamic_threshold =
        nf + (update_noise_floor s p sig).threshold_margin := by
  unfold update_noise_floor
  split
  · exact h
  · split
    · intro nf hnf
      have h2 : median (nf_buffer s p sig) = nf := Option.some.inj hnf
      show median (nf_buffer s p sig) + s.threshold_margin = nf + s.threshold_margin
      rw [h2]
    · intro nf hnf
      exact h nf hnf

theorem tick_nf_eq (s : DetectorState) (t p : ℚ) :
    (tick s t p).1.noise_floor = (update_noise_floor s p (decision s p).2.2).noise_floor ∧
    (tick s t p).1.noise_floor_history =
      (update_noise_floor s p (decision s p).2.2).noise_floor_history ∧
    (tick s t p).1.dynamic_threshold =
      (update_noise_floor s p (decision s p).2.2).dynamic_threshold := by
  obtain ⟨q, pk, pv, e⟩ := update_pulse_window_shape (update_noise_floor s p (decision s p).2.2) t p
  rw [tick_fst]
  by_cases hb : (decision s p).2.2 = true
  · rw [if_pos hb, e]
    exact ⟨rfl, rfl, rfl⟩
  · rw [if_neg hb, e]
    exact ⟨rfl, rfl, rfl⟩

theorem update_noise_floor_margin (s : DetectorState) (p : ℚ) (sig : Bool) :
    (update_noise_floor s p sig).threshold_margin = s.threshold_margin := by
  obtain ⟨h1, f1, d1, e⟩ := update_noise_floor_shape s p sig
  rw [e]

theorem tick_inv (s : DetectorState) (t p : ℚ)
    (h : ∀ nf, s.noise_floor = some nf → s.dynamic_threshold = nf + s.threshold_margin) :
    ∀ nf, (tick s t p).1.noise_floor = some nf →
      (tick s t p).1.dynamic_threshold = nf + (tick s t p).1.threshold_margin := by
  intro nf hnf
  have he := tick_nf_eq s t p
  have hm := (tick_config s t p).2.2.1
  rw [he.1] at hnf
  rw [he.2.2, hm]
  have := update_noise_floor_inv s p (decision s p).2.2 h nf hnf
  rw [this, update_noise_floor_margin]

theorem runTicks_inv (rs : List (ℚ × ℚ)) : ∀ s : DetectorState,
    (∀ nf, s.noise_floor = some nf → s.dynamic_threshold = nf + s.threshold_margin) →
    ∀ nf, (runTicks s rs).1.noise_floor = some nf →
      (runTicks s rs).1.dynamic_threshold = nf + (runTicks s rs).1.threshold_margin := by
  induction rs with
  | nil => intro s h; exact h
  | cons x xs ih =>
      intro s h
      obtain ⟨t, p⟩ := x
      exact ih (tick s t p).1 (tick_inv s t p h)

theorem decision_adaptive (s : DetectorState) (p nf : ℚ)
    (hA : s.adaptive_enabled = true) (hN : s.noise_floor = some nf) :
    decision s p = (s.dynamic_threshold, some nf, decide (s.dynamic_threshold < p)) := by
  unfold decision
  rw [hA, hN]

theorem decision_fixed (s : DetectorState) (p : ℚ)
    (h : s.adaptive_enabled = false ∨ s.noise_floor = none) :
    decision s p = (s.fixed_threshold, none, decide (s.fixed_threshold < p)) := by
  unfold decision
  rcases h with h | h
  · rw [h]
  · cases hA : s.adaptive_enabled
    · rfl
    · rw [h]

end TetraDetector

namespace TetraDetector

theorem tick_hist (s : DetectorState) (t p : ℚ) (h : s.adaptive_enabled = true) :
    (tick s t p).1.noise_floor_history =
      (if (tick s t p).2.detected = true then s.noise_floor_history
       else appendBounded s.noise_floor_window s.noise_floor_history p) := by
  have he := (tick_nf_eq s t p).2.1
  rw [he, update_noise_floor_hist s p _ h]
  show nf_buffer s p (decision s p).2.2 =
    (if (decision s p).2.2 = true then s.noise_floor_history
     else appendBounded s.noise_floor_window s.noise_floor_history p)
  cases hb : (decision s p).2.2
  · simp [nf_buffer]
  · simp [nf_buffer]

theorem runTicks_hist (w : ℕ) (rs : List (ℚ × ℚ)) : ∀ (s : DetectorState) (acc : List ℚ),
    s.adaptive_enabled = true → s.noise_floor_window = w →
    s.noise_floor_history = takeLast w acc →
    (runTicks s rs).1.noise_floor_history =
      takeLast w (acc ++ nonSignalPowers (runTicks s rs).2) := by
  induction rs with
  | nil =>
      intro s acc hA hw hh
      show s.noise_floor_history = takeLast w (acc ++ nonSignalPowers [])
      rw [hh]
      simp [nonSignalPowers]
  | cons x xs ih =>
      intro s acc hA hw hh
      obtain ⟨t, p⟩ := x
      have hstep1 : (runTicks s ((t, p) :: xs)).1 = (runTicks (tick s t p).1 xs).1 := rfl
      have hstep2 : (runTicks s ((t, p) :: xs)).2 =
        (tick s t p).2 :: (runTicks (tick s t p).1 xs).2 := rfl
      rw [hstep1, hstep2]
      have hA2 : (tick s t p).1.adaptive_enabled = true := (tick_config s t p).1.trans hA
      have hw2 : (tick s t p).1.noise_floor_window = w :=
        ((tick_config s t p).2.2.2.1).trans hw
      have hth := tick_hist s t p hA
      by_cases hd : (tick s t p).2.detected = true
      · rw [if_pos hd] at hth
        have h2 := ih (tick s t p).1 acc hA2 hw2 (hth.trans hh)
        rw [h2]
        have hns : nonSignalPowers ((tick s t p).2 :: (runTicks (tick s t p).1 xs).2) =
            nonSignalPowers ((runTicks (tick s t p).1 xs).2) := by
          simp [nonSignalPowers, List.filter_cons, hd]
        rw [hns]
      · rw [if_neg hd] at hth
        have hh2 : (tick s t p).1.noise_floor_history = takeLast w (acc ++ [p]) := by
          rw [hth, hw, hh, appendBounded_eq_takeLast, takeLast_takeLast_append]
        have h2 := ih (tick s t p).1 (acc ++ [p]) hA2 hw2 hh2
        rw [h2]
        have hdf : (tick s t p).2.detected = false := by
          cases hb : (tick s t p).2.detected
          · rfl
          · exact absurd hb hd
        have hns : nonSignalPowers ((tick s t p).2 :: (runTicks (tick s t p).1 xs).2) =
            p :: nonSignalPowers ((runTicks (tick s t p).1 xs).2) := by
          simp [nonSignalPowers, List.filter_cons, hdf]
          rfl
        rw [hns, List.append_assoc]
        rfl

theorem runTicks_fixed (rs : List (ℚ × ℚ)) : ∀ s : DetectorState,
    s.adaptive_enabled = false → s.noise_floor = none →
    (runTicks s rs).1.noise_floor = none ∧
    (runTicks s rs).1.noise_floor_history = s.noise_floor_history ∧
    ∀ r ∈ (runTicks s rs).2,
      r.threshold = s.fixed_threshold ∧ r.noise_floor = none ∧
      r.detected = decide (s.fixed_threshold < r.power_db) := by
  induction rs with
  | nil =>
      intro s hA hN
      exact ⟨hN, rfl, by intro r hr; cases hr⟩
  | cons x xs ih =>
      intro s hA hN
      obtain ⟨t, p⟩ := x
      have hdec := decision_fixed s p (Or.inl hA)
      have hupd : update_noise_floor s p (decision s p).2.2 = s :=
        update_noise_floor_not_adaptive s p _ hA
      have he := tick_nf_eq s t p
      have h1 : (tick s t p).1.noise_floor = none := by rw [he.1, hupd]; exact hN
      have h2 : (tick s t p).1.noise_floor_history = s.noise_floor_history := by
        rw [he.2.1, hupd]
      have hA2 : (tick s t p).1.adaptive_enabled = false := (tick_config s t p).1.trans hA
      have hft : (tick s t p).1.fixed_threshold = s.fixed_threshold := (tick_config s t p).2.1
      have ihh := ih (tick s t p).1 hA2 h1
      refine ⟨ihh.1, ihh.2.1.trans h2, ?_⟩
      intro r hr
      rcases List.mem_cons.mp hr with h | h
      · subst h
        rw [tick_snd, hdec]
        exact ⟨rfl, rfl, rfl⟩
      · have h3 := ihh.2.2 r h
        rw [hft] at h3
        exact h3

theorem display_power_of_floor_none (s : DetectorState) (h : s.noise_floor = none)
    (now : ℚ) :
    display_power s now = -80 ∨ display_power s now = s.last_detection_peak := by
  unfold display_power
  split
  · right; rfl
  · left; rw [h]

theorem pw_queue_eq_filter (s : DetectorState) (now p : ℚ)
    (hsorted : s.signal_history.Pairwise (fun a b => a.1 ≤ b.1))
    (hle : ∀ r ∈ s.signal_history, r.1 ≤ now) :
    pw_queue s now p =
      (s.signal_history ++ [(now, p)]).filter
        (fun r => decide (now - s.pulse_window_seconds ≤ r.1)) := by
  unfold pw_queue
  rw [dropWhile_eq_filter_of_sorted _ _ ?hpair]
  case hpair =>
    apply List.pairwise_append.mpr
    refine ⟨?_, ?_, ?_⟩
    · refine hsorted.imp ?_
      intro a b hab hbc
      simp only [decide_eq_true_eq] at hbc ⊢
      exact lt_of_le_of_lt hab hbc
    · simp
    · intro a ha b hb
      simp only [List.mem_singleton] at hb
      subst hb
      intro hb2
      simp only [decide_eq_true_eq] at hb2 ⊢
      exact lt_of_le_of_lt (hle a ha) hb2
  · apply List.filter_congr
    intro a _
    by_cases hc : a.1 < now - s.pulse_window_seconds
    · simp [hc, not_le.mpr hc]
    · simp [hc, not_lt.mp hc]

theorem update_pulse_window_queue (s : DetectorState) (now p : ℚ) :
    (update_pulse_window s now p).signal_history = pw_queue s now p ∧
    (pw_queue s now p ≠ [] →
       (update_pulse_window s now p).peak_in_window =
         listMax ((pw_queue s now p).map Prod.snd) ∧
       (update_pulse_window s now p).previous_peak = s.peak_in_window) ∧
    (pw_queue s now p = [] → (update_pulse_window s now p).peak_in_window = p) := by
  rcases hq : pw_queue s now p with _ | ⟨r, rs⟩
  · refine ⟨?_, ?_, ?_⟩
    · simp [update_pulse_window, hq]
    · intro h; exact absurd rfl h
    · intro _; simp [update_pulse_window, hq]
  · refine ⟨?_, ?_, ?_⟩
    · simp [update_pulse_window, hq]
    · intro _
      constructor
      · simp [update_pulse_window, hq]
      · simp [update_pulse_window, hq]
    · intro h; exact absurd h (by simp)

theorem pw_queue_ne_nil (s : DetectorState) (now p : ℚ)
    (hW : 0 ≤ s.pulse_window_seconds) : pw_queue s now p ≠ [] := by
  unfold pw_queue
  apply dropWhile_append_singleton_ne_nil
  simp only [decide_eq_false_iff_not, not_lt]
  linarith

end TetraDetector

namespace TetraDetector

/-- C1: after `update_noise_floor`, whenever the non-signal buffer holds at
least 5 entries (adaptive mode) the noise-floor estimate equals the median
of the buffered values; with fewer than 5 entries the estimate keeps its
previous value (including the initial unset state); a non-signal reading
is appended to the bounded deque (oldest evicted first); and over any run
the buffer is exactly the most recent `window_size` non-signal readings. -/
theorem noise_floor_median_spec (s : DetectorState) (p : ℚ) (sig : Bool) :
    (s.adaptive_enabled = true →
      5 ≤ (update_noise_floor s p sig).noise_floor_history.length →
      (update_noise_floor s p sig).noise_floor =
        some (median (update_noise_floor s p sig).noise_floor_history)) ∧
    ((update_noise_floor s p sig).noise_floor_history.length < 5 →
      (update_noise_floor s p sig).noise_floor = s.noise_floor) ∧
    (s.adaptive_enabled = true → sig = false →
      (update_noise_floor s p sig).noise_floor_history =
        appendBounded s.noise_floor_window s.noise_floor_history p) ∧
    (∀ (ft m : ℚ) (w : ℕ) (W : ℚ) (rs : List (ℚ × ℚ)),
      (runTicks (initState true ft m w W) rs).1.noise_floor_history =
        takeLast w (nonSignalPowers (runTicks (initState true ft m w W) rs).2)) := by
  refine ⟨?_, ?_, ?_, ?_⟩
  · intro hA h5
    rw [update_noise_floor_hist s p sig hA] at h5
    rw [update_noise_floor_floor s p sig hA, update_noise_floor_hist s p sig hA, if_pos h5]
  · intro h5
    by_cases hA : s.adaptive_enabled = true
    · rw [update_noise_floor_hist s p sig hA] at h5
      rw [update_noise_floor_floor s p sig hA, if_neg (not_le.mpr h5)]
    · have hA2 : s.adaptive_enabled = false := by
        cases hb : s.adaptive_enabled
        · rfl
        · exact absurd hb hA
      rw [update_noise_floor_not_adaptive s p sig hA2]
  · intro hA hs
    subst hs
    rw [update_noise_floor_hist s p false hA]
    rfl
  · intro ft m w W rs
    have h := runTicks_hist w rs (initState true ft m w W) [] rfl rfl (by simp [takeLast, initState])
    rw [List.nil_append] at h
    exact h

/-- C1 witness: in adaptive mode with margin 8 and a 4-entry buffer, the
non-signal reading -73 fills the buffer to 5 and the estimate becomes the
median, concretely -71. -/
theorem noise_floor_median_spec_witness :
    (update_noise_floor
        { initState true (-50) 8 20 4 with noise_floor_history := [-72, -70, -71, -69] }
        (-73) false).noise_floor =
      some (median (update_noise_floor
        { initState true (-50) 8 20 4 with noise_floor_history := [-72, -70, -71, -69] }
        (-73) false).noise_floor_history) ∧
    (update_noise_floor
        { initState true (-50) 8 20 4 with noise_floor_history := [-72, -70, -71, -69] }
        (-73) false).noise_floor = some (-71) := by
  constructor
  · exact (noise_floor_median_spec
      { initState true (-50) 8 20 4 with noise_floor_history := [-72, -70, -71, -69] }
      (-73) false).1 rfl
      (by norm_num [update_noise_floor, nf_buffer, initState, appendBounded])
  · norm_num [update_noise_floor, nf_buffer, initState, appendBounded, median,
      sortList, insertSorted]

/-- C3: a reading whose decision is detected is never appended to the
device non-signal buffer: the buffer after the tick is unchanged, and over
any adaptive run every buffered value comes from a reading whose tick was
classified non-signal. -/
theorem detected_reading_excluded (s : DetectorState) (t p : ℚ) :
    ((tick s t p).2.detected = true →
      (tick s t p).1.noise_floor_history = s.noise_floor_history) ∧
    (∀ (ft m : ℚ) (w : ℕ) (W : ℚ) (rs : List (ℚ × ℚ)),
      ∀ x ∈ (runTicks (initState true ft m w W) rs).1.noise_floor_history,
        x ∈ nonSignalPowers (runTicks (initState true ft m w W) rs).2) := by
  constructor
  · intro hd
    by_cases hA : s.adaptive_enabled = true
    · rw [tick_hist s t p hA, if_pos hd]
    · have hA2 : s.adaptive_enabled = false := by
        cases hb : s.adaptive_enabled
        · rfl
        · exact absurd hb hA
      rw [(tick_nf_eq s t p).2.1, update_noise_floor_not_adaptive s p _ hA2]
  · intro ft m w W rs x hx
    have h := runTicks_hist w rs (initState true ft m w W) [] rfl rfl (by simp [takeLast, initState])
    rw [List.nil_append] at h
    rw [h] at hx
    unfold takeLast at hx
    exact List.mem_of_mem_drop hx

/-- C3 witness: in fixed mode with threshold -50 the reading -45 is
detected, and the non-signal buffer is left untouched (still empty). -/
theorem detected_reading_excluded_witness :
    (tick (initState false (-50) 8 20 4) 0 (-45)).2.detected = true ∧
    (tick (initState false (-50) 8 20 4) 0 (-45)).1.noise_floor_history = [] := by
  have hd : (tick (initState false (-50) 8 20 4) 0 (-45)).2.detected = true := by
    norm_num [tick, decision, initState]
  exact ⟨hd, (detected_reading_excluded (initState false (-50) 8 20 4) 0 (-45)).1 hd⟩

/-- C4: for a time-ordered queue of past readings, `update_pulse_window`
retains exactly the entries with timestamp at least `now` minus
`pulse_window_seconds` (older entries evicted), the recorded peak is the
maximum power among the retained entries (a member that bounds them all),
and if the queue emptied the peak falls back to the raw reading. -/
theorem pulse_window_spec (s : DetectorState) (now p : ℚ)
    (hsorted : s.signal_history.Pairwise (fun a b => a.1 ≤ b.1))
    (hle : ∀ r ∈ s.signal_history, r.1 ≤ now) :
    (update_pulse_window s now p).signal_history =
      (s.signal_history ++ [(now, p)]).filter
        (fun r => decide (now - s.pulse_window_seconds ≤ r.1)) ∧
    ((update_pulse_window s now p).signal_history ≠ [] →
       (update_pulse_window s now p).peak_in_window ∈
         ((update_pulse_window s now p).signal_history.map Prod.snd) ∧
       ∀ q ∈ (update_pulse_window s now p).signal_history.map Prod.snd,
         q ≤ (update_pulse_window s now p).peak_in_window) ∧
    ((update_pulse_window s now p).signal_history = [] →
       (update_pulse_window s now p).peak_in_window = p) ∧
    (update_pulse_window s now p).signal_history.Pairwise (fun a b => a.1 ≤ b.1) := by
  obtain ⟨hq, hpk, hemp⟩ := update_pulse_window_queue s now p
  refine ⟨?_, ?_, ?_, ?_⟩
  · rw [hq]
    exact pw_queue_eq_filter s now p hsorted hle
  · intro hne
    rw [hq] at hne ⊢
    obtain ⟨hpeak, _⟩ := hpk hne
    rw [hpeak]
    constructor
    · exact listMax_mem _ (by simp [hne])
    · intro q hqm
      exact le_listMax _ _ hqm
  · intro hnil
    rw [hq] at hnil
    exact hemp hnil
  · have hbig : (s.signal_history ++ [(now, p)]).Pairwise (fun a b => a.1 ≤ b.1) := by
      apply List.pairwise_append.mpr
      refine ⟨hsorted, by simp, ?_⟩
      intro a ha b hb
      simp only [List.mem_singleton] at hb
      subst hb
      exact hle a ha
    rw [hq, pw_queue_eq_filter s now p hsorted hle]
    exact hbig.sublist (List.filter_sublist _)

/-- C4 witness: window 4 s; queue [(0,-50),(1,-40)], new reading -65 at
t=5: the entry at t=0 is evicted, the queue becomes [(1,-40),(5,-65)] and
the peak recomputes to -40. -/
theorem pulse_window_spec_witness :
    (update_pulse_window
        { initState false (-50) 8 20 4 with signal_history := [(0, -50), (1, -40)] }
        5 (-65)).signal_history = [(1, -40), (5, -65)] ∧
    (update_pulse_window
        { initState false (-50) 8 20 4 with signal_history := [(0, -50), (1, -40)] }
        5 (-65)).peak_in_window = -40 := by
  have h := pulse_window_spec
    { initState false (-50) 8 20 4 with signal_history := [(0, -50), (1, -40)] }
    5 (-65)
    (by norm_num [List.pairwise_cons])
    (by intro r hr; simp at hr; rcases hr with h | h <;> rw [h] <;> norm_num)
  constructor
  · rw [h.1]
    norm_num [initState, List.filter]
  · norm_num [update_pulse_window, pw_queue, initState, listMax, List.dropWhile]

/-- C9: whenever `pulse_window_seconds` is non-negative the queue is
non-empty after eviction (the just-appended reading survives the cutoff),
so the empty-queue fallback is unreachable: the peak is always the maximum
over the non-empty queue and the previous peak is saved. -/
theorem pulse_queue_nonempty (s : DetectorState) (now p : ℚ)
    (hW : 0 ≤ s.pulse_window_seconds) :
    (update_pulse_window s now p).signal_history ≠ [] ∧
    (update_pulse_window s now p).peak_in_window =
      listMax ((update_pulse_window s now p).signal_history.map Prod.snd) ∧
    (update_pulse_window s now p).previous_peak = s.peak_in_window := by
  obtain ⟨hq, hpk, _⟩ := update_pulse_window_queue s now p
  have hne := pw_queue_ne_nil s now p hW
  obtain ⟨hpeak, hprev⟩ := hpk hne
  refine ⟨?_, ?_, hprev⟩
  · rw [hq]
    exact hne
  · rw [hpeak, hq]

/-- C9 witness: with the default 4-second window the first reading leaves
a non-empty queue whose maximum is the reading itself. -/
theorem pulse_queue_nonempty_witness :
    (update_pulse_window (initState false (-50) 8 20 4) 0 (-60)).signal_history ≠ [] ∧
    (update_pulse_window (initState false (-50) 8 20 4) 0 (-60)).peak_in_window =
      listMax ((update_pulse_window (initState false (-50) 8 20 4) 0
        (-60)).signal_history.map Prod.snd) := by
  have h := pulse_queue_nonempty (initState false (-50) 8 20 4) 0 (-60)
    (by norm_num [initState])
  exact ⟨h.1, h.2.1⟩

end TetraDetector

namespace TetraDetector

/-- C2: on any reachable state of the loop, the tick of the detection
decision reports threshold `noise_floor + threshold_margin` together with
the noise floor whenever adaptive mode is enabled and the floor is set
(and decides against exactly that sum); when adaptive mode is disabled or
the floor is unset it reports exactly the fixed configured threshold and a
null noise floor. -/
theorem effective_threshold_spec (a : Bool) (ft m : ℚ) (w : ℕ) (W : ℚ)
    (rs : List (ℚ × ℚ)) (t p : ℚ) :
    (∀ nf, a = true →
       (runTicks (initState a ft m w W) rs).1.noise_floor = some nf →
       (tick (runTicks (initState a ft m w W) rs).1 t p).2.threshold = nf + m ∧
       (tick (runTicks (initState a ft m w W) rs).1 t p).2.noise_floor = some nf ∧
       (tick (runTicks (initState a ft m w W) rs).1 t p).2.detected =
         decide (nf + m < p)) ∧
    ((a = false ∨ (runTicks (initState a ft m w W) rs).1.noise_floor = none) →
       (tick (runTicks (initState a ft m w W) rs).1 t p).2.threshold = ft ∧
       (tick (runTicks (initState a ft m w W) rs).1 t p).2.noise_floor = none) := by
  have hcfg := runTicks_config rs (initState a ft m w W)
  constructor
  · intro nf hA hN
    have hA2 : (runTicks (initState a ft m w W) rs).1.adaptive_enabled = true := by
      rw [hcfg.1]
      exact hA
    have hInv := runTicks_inv rs (initState a ft m w W)
      (by intro nf0 h0; exact Option.noConfusion h0)
    have hdyn := hInv nf hN
    have hdec := decision_adaptive (runTicks (initState a ft m w W) rs).1 p nf hA2 hN
    rw [tick_snd, hdec]
    refine ⟨?_, rfl, ?_⟩
    · show (runTicks (initState a ft m w W) rs).1.dynamic_threshold = nf + m
      rw [hdyn, hcfg.2.2.1]
      rfl
    · show decide ((runTicks (initState a ft m w W) rs).1.dynamic_threshold < p) =
        decide (nf + m < p)
      rw [hdyn, hcfg.2.2.1]
      rfl
  · intro h
    have h2 : (runTicks (initState a ft m w W) rs).1.adaptive_enabled = false ∨
        (runTicks (initState a ft m w W) rs).1.noise_floor = none := by
      rcases h with h | h
      · left
        rw [hcfg.1]
        exact h
      · right
        exact h
    have hdec := decision_fixed _ p h2
    rw [tick_snd, hdec]
    exact ⟨hcfg.2.1, rfl⟩

/-- C2 witness: adaptive mode, margin 8, five quiet readings establish the
floor -71; the next tick decides against threshold -71 + 8 = -63, reports
the floor, and flags the reading -60 as detected. -/
theorem effective_threshold_spec_witness :
    (tick (runTicks (initState true (-50) 8 20 4)
        [(0, -72), (1, -70), (2, -71), (3, -69), (4, -73)]).1 5 (-60)).2.threshold =
      -71 + 8 ∧
    (tick (runTicks (initState true (-50) 8 20 4)
        [(0, -72), (1, -70), (2, -71), (3, -69), (4, -73)]).1 5 (-60)).2.noise_floor =
      some (-71) ∧
    (tick (runTicks (initState true (-50) 8 20 4)
        [(0, -72), (1, -70), (2, -71), (3, -69), (4, -73)]).1 5 (-60)).2.detected =
      true := by
  have hN : (runTicks (initState true (-50) 8 20 4)
      [(0, -72), (1, -70), (2, -71), (3, -69), (4, -73)]).1.noise_floor = some (-71) := by
    norm_num [runTicks, tick, decision, update_noise_floor, nf_buffer,
      update_pulse_window, pw_queue, initState, appendBounded, listMax,
      median, sortList, insertSorted, List.dropWhile]
  have h := (effective_threshold_spec true (-50) 8 20 4
    [(0, -72), (1, -70), (2, -71), (3, -69), (4, -73)] 5 (-60)).1 (-71) rfl hN
  refine ⟨h.1, h.2.1, ?_⟩
  rw [h.2.2]
  norm_num

/-- C5 counterexample: the claim says a stored detection within
`window_seconds + 1` is always displayed; but `display_status` also
requires the stored peak to exceed -90.  With fixed threshold -95 a
reading of -92 is detected and stored, the detection is current
(age 0 <= 4 + 1), yet the display shows the -80 baseline, not -92. -/
theorem display_recent_detection_counterexample :
    (tick (initState false (-95) 8 20 4) 0 (-92)).1.last_detection_time = some 0 ∧
    (tick (initState false (-95) 8 20 4) 0 (-92)).1.last_detection_peak = -92 ∧
    ((0 : ℚ) - 0 ≤ (tick (initState false (-95) 8 20 4) 0 (-92)).1.pulse_window_seconds + 1) ∧
    display_power (tick (initState false (-95) 8 20 4) 0 (-92)).1 0 = -80 ∧
    display_power (tick (initState false (-95) 8 20 4) 0 (-92)).1 0 ≠
      (tick (initState false (-95) 8 20 4) 0 (-92)).1.last_detection_peak := by
  norm_num [tick, decision, update_noise_floor, nf_buffer, update_pulse_window,
    pw_queue, initState, appendBounded, listMax, display_power, display_recent,
    List.dropWhile]

/-- C5 amended: if a stored detection exists, its peak P exceeds -90, and
its age is at most `window_seconds + 1`, the display shows P; once the age
exceeds `window_seconds + 1` the display falls back to the noise floor if
established, else to the -80 baseline. -/
theorem display_recent_detection_amended (s : DetectorState) (T P now : ℚ)
    (ht : s.last_detection_time = some T) (hp : s.last_detection_peak = P) :
    (-90 < P → now - T ≤ s.pulse_window_seconds + 1 → display_power s now = P) ∧
    (s.pulse_window_seconds + 1 < now - T →
      display_power s now = s.noise_floor.getD (-80)) := by
  constructor
  · intro h90 hwin
    unfold display_power
    have hr : display_recent s now = true := by
      unfold display_recent
      rw [ht]
      simp only [Bool.and_eq_true, decide_eq_true_eq]
      exact ⟨hp ▸ h90, hwin⟩
    rw [if_pos hr]
    exact hp
  · intro hlate
    unfold display_power
    have hr : display_recent s now = false := by
      unfold display_recent
      rw [ht]
      have h2 : ¬(now - T ≤ s.pulse_window_seconds + 1) := not_le.mpr hlate
      simp [h2]
    rw [if_neg (by simp [hr])]
    cases s.noise_floor <;> rfl

/-- C5 amended witness: detection at peak -45 (above -90) at T = 10 with
window 4 s; the query at T + 4 + 0.5 shows -45, the query at T + 4 + 1.5
falls back to the baseline -80 (no noise floor in fixed mode). -/
theorem display_recent_detection_amended_witness :
    display_power (tick (initState false (-50) 8 20 4) 10 (-45)).1 14.5 = -45 ∧
    display_power (tick (initState false (-50) 8 20 4) 10 (-45)).1 15.5 = -80 := by
  have ht : (tick (initState false (-50) 8 20 4) 10 (-45)).1.last_detection_time =
      some 10 := by
    norm_num [tick, decision, update_noise_floor, nf_buffer, update_pulse_window,
      pw_queue, initState, appendBounded, listMax, List.dropWhile]
  have hp : (tick (initState false (-50) 8 20 4) 10 (-45)).1.last_detection_peak =
      -45 := by
    norm_num [tick, decision, update_noise_floor, nf_buffer, update_pulse_window,
      pw_queue, initState, appendBounded, listMax, List.dropWhile]
  have hW : (tick (initState false (-50) 8 20 4) 10 (-45)).1.pulse_window_seconds =
      4 := by
    norm_num [tick, decision, update_noise_floor, nf_buffer, update_pulse_window,
      pw_queue, initState, appendBounded, listMax, List.dropWhile]
  have hF : (tick (initState false (-50) 8 20 4) 10 (-45)).1.noise_floor = none := by
    norm_num [tick, decision, update_noise_floor, nf_buffer, update_pulse_window,
      pw_queue, initState, appendBounded, listMax, List.dropWhile]
  constructor
  · exact (display_recent_detection_amended
      (tick (initState false (-50) 8 20 4) 10 (-45)).1 10 (-45) 14.5 ht hp).1
      (by norm_num) (by rw [hW]; norm_num)
  · have h2 := (display_recent_detection_amended
      (tick (initState false (-50) 8 20 4) 10 (-45)).1 10 (-45) 15.5 ht hp).2
      (by rw [hW]; norm_num)
    rw [h2, hF]
    rfl

end TetraDetector

namespace TetraDetector

/-- C8: the detection verdict is the strict comparison of power against
the effective threshold on every tick; concretely, in fixed mode with
threshold -50 the readings -60, -55, -45, -70 yield the detected sequence
[false, false, true, false] and leave both the global and the per-device
detection count at 1. -/
theorem strict_threshold_scenario :
    (∀ (s : DetectorState) (t p : ℚ),
      (tick s t p).2.detected = decide ((tick s t p).2.threshold < p)) ∧
    (runTicks (initState false (-50) 8 20 4)
        [(0, -60), (1, -55), (2, -45), (3, -70)]).2.map (fun r => r.detected) =
      [false, false, true, false] ∧
    (runTicks (initState false (-50) 8 20 4)
        [(0, -60), (1, -55), (2, -45), (3, -70)]).1.total_detections = 1 ∧
    (runTicks (initState false (-50) 8 20 4)
        [(0, -60), (1, -55), (2, -45), (3, -70)]).1.detection_count = 1 := by
  refine ⟨?_, ?_, ?_, ?_⟩
  · intro s t p
    rw [tick_snd]
    show (decision s p).2.2 = decide ((decision s p).1 < p)
    unfold decision
    cases hA : s.adaptive_enabled <;> cases hN : s.noise_floor <;> rfl
  · norm_num [runTicks, tick, decision, update_noise_floor, nf_buffer,
      update_pulse_window, pw_queue, initState, appendBounded, listMax,
      List.dropWhile]
  · norm_num [runTicks, tick, decision, update_noise_floor, nf_buffer,
      update_pulse_window, pw_queue, initState, appendBounded, listMax,
      List.dropWhile]
  · norm_num [runTicks, tick, decision, update_noise_floor, nf_buffer,
      update_pulse_window, pw_queue, initState, appendBounded, listMax,
      List.dropWhile]

/-- C10: when adaptive mode is disabled `update_noise_floor` is the
identity on the state; over any fixed-mode run the non-signal buffer stays
empty and the noise floor stays unset, every tick reports the fixed
threshold with a null noise floor and decides against the fixed threshold,
and the quiescent display never shows a noise floor (it is the -80
baseline whenever it is not a stored detection peak). -/
theorem fixed_mode_invariant (ft m : ℚ) (w : ℕ) (W : ℚ) (rs : List (ℚ × ℚ)) :
    (∀ (s : DetectorState) (p : ℚ) (sig : Bool),
       s.adaptive_enabled = false → update_noise_floor s p sig = s) ∧
    (runTicks (initState false ft m w W) rs).1.noise_floor_history = [] ∧
    (runTicks (initState false ft m w W) rs).1.noise_floor = none ∧
    (∀ r ∈ (runTicks (initState false ft m w W) rs).2,
       r.threshold = ft ∧ r.noise_floor = none ∧
       r.detected = decide (ft < r.power_db)) ∧
    (∀ now : ℚ,
       display_power (runTicks (initState false ft m w W) rs).1 now = -80 ∨
       display_power (runTicks (initState false ft m w W) rs).1 now =
         (runTicks (initState false ft m w W) rs).1.last_detection_peak) := by
  have hfix := runTicks_fixed rs (initState false ft m w W) rfl rfl
  refine ⟨update_noise_floor_not_adaptive, hfix.2.1, hfix.1, hfix.2.2, ?_⟩
  intro now
  rcases display_power_of_floor_none _ hfix.1 now with h | h
  · exact Or.inl h
  · exact Or.inr h

/-- C10 witness: the identity of `update_noise_floor` in fixed mode on a
concrete state, and the fixed-mode tick result for the reading -45 against
threshold -50. -/
theorem fixed_mode_invariant_witness :
    update_noise_floor (initState false (-50) 8 20 4) (-60) false =
      initState false (-50) 8 20 4 ∧
    (tick (initState false (-50) 8 20 4) 0 (-45)).2.threshold = -50 ∧
    (tick (initState false (-50) 8 20 4) 0 (-45)).2.noise_floor = none ∧
    (tick (initState false (-50) 8 20 4) 0 (-45)).2.detected =
      decide ((-50 : ℚ) < (tick (initState false (-50) 8 20 4) 0 (-45)).2.power_db) := by
  have h := fixed_mode_invariant (-50) 8 20 4 [(0, -45)]
  have h4 := h.2.2.2.1 (tick (initState false (-50) 8 20 4) 0 (-45)).2
    (List.mem_cons_self _ _)
  exact ⟨h.1 _ _ _ rfl, h4.1, h4.2.1, h4.2.2⟩

end TetraDetector

namespace SDRManager

/-- C7: a failing acquisition is replaced by the -80 sentinel inside
`SDRDevice.scan` and `SDRManager.scan_all` still returns one result per
device: devices before and after the failing one get exactly the results
they would get anyway, and the failing device contributes the sentinel
row. -/
theorem scan_failure_sentinel (thr : ℚ) (msg : String)
    (pre post : List (Except String ℚ)) :
    scan_all thr (pre ++ Except.error msg :: post) =
      scan_all thr pre ++ ((-80 : ℚ), decide (thr < (-80 : ℚ))) :: scan_all thr post ∧
    (scan_all thr (pre ++ Except.error msg :: post)).length =
      pre.length + 1 + post.length ∧
    SDRDevice_scan (Except.error msg) = -80 := by
  refine ⟨?_, ?_, rfl⟩
  · unfold scan_all
    rw [List.map_append, List.map_cons]
    rfl
  · unfold scan_all
    rw [List.length_map, List.length_append, List.length_cons]
    omega

end SDRManager

namespace Shutdown

/-- C6 (code bug in the source): on the external cancellation signal the
installed handler raises SystemExit via sys.exit(0); the loop of
`TetraDetector.run` only handles KeyboardInterrupt, so the finalization
step `cleanup()` does not run on cancellation, although it would run for a
bare KeyboardInterrupt. -/
theorem cleanup_skipped_on_cancellation :
    cleanup_runs_on_cancellation = false ∧
    run_cleanup_on LoopExit.keyboardInterrupt = true := ⟨rfl, rfl⟩

end Shutdown
